import Mathlib

/-!
Shallow embedding of the transcription core of the `speacher` backend:
the result normalizer / diarization reconstructor
(`process_transcription_data` in `src/backend/main.py`), the cost
estimator (`calculate_cost`), the in-memory transcription job store
(`src/backend/transcription_jobs.py`), and the per-provider pipeline
control flow (`process_aws_transcription`).

Modelling conventions:
* Python floats are modelled as `ℚ`.
* AWS-style timestamps arrive as JSON strings such as "0.5"; a present
  (non-empty, hence truthy) string field is modelled as `some q` with the
  parsed value, an absent field as `none`.  The Python truthiness test
  `item.get("start_time")` therefore becomes `Option.isSome`.
* A JSON dict key that is absent is `none`; modelled keys, when present,
  hold a non-null value.
* Exceptions are modelled with `Except Unit`.
-/

namespace Speacher

/-- One entry of an "alternatives" list: a dict that may carry a
"content" key (word items) or a "transcript" key (GCP result entries). -/
structure Alt where
  content : Option String := none
  transcript : Option String := none
deriving DecidableEq

/-- One entry of `results["items"]`: an AWS word/punctuation item. -/
structure Item where
  start_time : Option ℚ := none
  end_time : Option ℚ := none
  type : Option String := none
  alternatives : List Alt := []
deriving DecidableEq

/-- One entry of `results["speaker_labels"]["segments"]`. -/
structure Segment where
  speaker_label : Option String := none
  start_time : Option ℚ := none
  end_time : Option ℚ := none
deriving DecidableEq

/-- The `results["speaker_labels"]` dict. -/
structure SpeakerLabels where
  segments : List Segment := []
deriving DecidableEq

/-- One entry of `results["transcripts"]`. -/
structure TranscriptEntry where
  transcript : Option String := none
deriving DecidableEq

/-- The value of the "results" key when it is a dict (AWS Shape A). -/
structure ResultsDict where
  transcripts : Option (List TranscriptEntry) := none
  items : Option (List Item) := none
  speaker_labels : Option SpeakerLabels := none
deriving DecidableEq

/-- One entry of a list-valued "results" field (GCP Shape C); holds an
"alternatives" list (absent key modelled as `[]`, like a present empty
list: both are falsy in `if "alternatives" in res and res["alternatives"]`
only when the list test also runs, see `gcpEntryTranscripts`). -/
structure GcpEntry where
  alternatives : List Alt := []
deriving DecidableEq

/-- The value of the "results" key: either a dict (Shape A) or a list of
result entries (Shape C). -/
inductive ResultsVal where
  | dict (d : ResultsDict)
  | glist (l : List GcpEntry)
deriving DecidableEq

/-- A raw provider payload (top-level JSON dict).  `none` fields model
absent keys. -/
structure RawPayload where
  results : Option ResultsVal := none
  displayText : Option String := none
  duration : Option ℤ := none
deriving DecidableEq

/-- Python truthiness of the "results" value: a dict is truthy when it has
at least one (modelled) key, a list when it is non-empty. -/
def ResultsVal.truthy : ResultsVal → Bool
  | .dict d => d.transcripts.isSome || d.items.isSome || d.speaker_labels.isSome
  | .glist l => !l.isEmpty

/-- Python truthiness of the payload dict (`if not transcription_data`). -/
def RawPayload.truthy (d : RawPayload) : Bool :=
  d.results.isSome || d.displayText.isSome || d.duration.isSome

/-- `"transcripts" in results and ...` lookup.  When `results` is a list,
`"transcripts" in results` is a membership test over the list's elements
(dicts), which never equal the string, so the lookup yields nothing. -/
def ResultsVal.getTranscripts : ResultsVal → Option (List TranscriptEntry)
  | .dict d => d.transcripts
  | .glist _ => none

/-- `"items" in results` lookup, same membership-test caveat for lists. -/
def ResultsVal.getItems : ResultsVal → Option (List Item)
  | .dict d => d.items
  | .glist _ => none

/-- `"speaker_labels" in results` lookup, same caveat for lists. -/
def ResultsVal.getSpeakerLabels : ResultsVal → Option SpeakerLabels
  | .dict d => d.speaker_labels
  | .glist _ => none

/-- One speaker entry of the processed result. -/
structure SpeakerData where
  speaker : String
  text : String
  start_time : ℚ
  end_time : ℚ
deriving DecidableEq

/-- The processed result dict built by `process_transcription_data`. -/
structure TranscriptionResult where
  transcript : String
  speakers : List SpeakerData
  duration : ℚ
deriving DecidableEq

/-- The initial value `{"transcript": "", "speakers": [], "duration": 0.0}`. -/
def emptyResult : TranscriptionResult := { transcript := "", speakers := [], duration := 0 }

/-- Python `s.split()` on a character list: split on whitespace runs,
dropping empty words.  `cur` accumulates the current word reversed. -/
def pyWordsAux : List Char → List Char → List String
  | [], cur => if cur.isEmpty then [] else [String.mk cur.reverse]
  | c :: cs, cur =>
    if c.isWhitespace then
      if cur.isEmpty then pyWordsAux cs [] else String.mk cur.reverse :: pyWordsAux cs []
    else pyWordsAux cs (c :: cur)

/-- Python `" ".join(s.split())`: collapse whitespace runs to single
spaces and strip the ends. -/
def collapseSpaces (s : String) : String :=
  " ".intercalate (pyWordsAux s.data [])

/-- Transcript built from items when `results["transcripts"]` is missing
or falsy: for every item with a truthy "alternatives" list, take the first
alternative's "content" (default ""), and join with single spaces. -/
def transcriptFromItems (items : List Item) : String :=
  " ".intercalate (items.filterMap fun item =>
    match item.alternatives with
    | [] => none
    | a :: _ => some (a.content.getD ""))

/-- One iteration of the word-collection loop of the diarization
reconstruction: if the item has (truthy) timestamps fully contained in the
segment and a truthy "alternatives" list, append its first alternative's
content; then look at the item *after the first occurrence of this item in
the flat list* (`items.index(item)`), and if it is a punctuation item,
append its first alternative's content onto the collected word with no
space — where Python's `next_item["alternatives"][0]` raises (modelled as
`Except.error`) when that punctuation item has no alternatives. -/
def segmentStep (items : List Item) (segStart segEnd : ℚ)
    (acc : List String) (item : Item) : Except Unit (List String) :=
  if item.start_time.isSome && item.end_time.isSome then
    let item_start := item.start_time.getD 0
    let item_end := item.end_time.getD 0
    if segStart ≤ item_start ∧ item_end ≤ segEnd then
      match item.alternatives with
      | [] => .ok acc
      | a :: _ =>
        let content := a.content.getD ""
        let idx := items.indexOf item
        match items[idx + 1]? with
        | none => .ok (acc ++ [content])
        | some next =>
          if next.type = some "punctuation" then
            match next.alternatives with
            | [] => .error ()
            | b :: _ => .ok (acc ++ [content ++ b.content.getD ""])
          else .ok (acc ++ [content])
    else .ok acc
  else .ok acc

/-- The word-collection loop over the flat item list for one segment
(`for item in items: ...`), threading the accumulated word list. -/
def collectWords (items : List Item) (segStart segEnd : ℚ) :
    List Item → List String → Except Unit (List String)
  | [], acc => .ok acc
  | it :: rest, acc =>
    match segmentStep items segStart segEnd acc it with
    | .ok acc' => collectWords items segStart segEnd rest acc'
    | .error e => .error e

/-- Process one speaker segment: collect its words, join and clean spaces,
and emit a speaker entry only when the text is non-empty. -/
def processSegment (items : List Item) (seg : Segment) :
    Except Unit (Option SpeakerData) :=
  let segStart := seg.start_time.getD 0
  let segEnd := seg.end_time.getD 0
  match collectWords items segStart segEnd items [] with
  | .error e => .error e
  | .ok words =>
    let text := collapseSpaces (" ".intercalate words)
    if text = "" then .ok none
    else .ok (some { speaker := "Speaker " ++ seg.speaker_label.getD "Unknown",
                     text := text, start_time := segStart, end_time := segEnd })

/-- The segment loop of the diarization branch: process segments in input
order, appending each non-empty one to `result["speakers"]` as the loop
goes; an exception stops the loop but the entries appended so far stay.
Returns the entries appended by the loop and whether it raised. -/
def runSegmentLoop (items : List Item) : List Segment → List SpeakerData × Bool
  | [] => ([], false)
  | seg :: rest =>
    match processSegment items seg with
    | .error _ => ([], true)
    | .ok none => runSegmentLoop items rest
    | .ok (some sd) =>
      (sd :: (runSegmentLoop items rest).1, (runSegmentLoop items rest).2)

/-- The entries the `except` block appends: one speaker entry per
provider segment with empty text and the segment's original timing. -/
def fallbackSpeakers (segments : List Segment) : List SpeakerData :=
  segments.map fun seg =>
    { speaker := "Speaker " ++ seg.speaker_label.getD "Unknown",
      text := "", start_time := seg.start_time.getD 0, end_time := seg.end_time.getD 0 }

/-- The diarization branch: the `try` block first calls the external
`speacher.transcription` module (`ext_ok` models whether that call
returns normally) and then runs the segment loop; the `except` block
appends the fallback entries to `result["speakers"]` *without clearing
the entries the loop already appended*. -/
def processSpeakers (ext_ok : Bool) (labels : SpeakerLabels) (items : List Item) :
    List SpeakerData :=
  if ext_ok then
    if (runSegmentLoop items labels.segments).2 then
      (runSegmentLoop items labels.segments).1 ++ fallbackSpeakers labels.segments
    else (runSegmentLoop items labels.segments).1
  else fallbackSpeakers labels.segments

/-- `process_transcription_data` from `src/backend/main.py`.  `ext_ok`
models the external `speacher.transcription` call inside the diarization
`try` block (see `reconstructSpeakers`). -/
def process_transcription_data (ext_ok : Bool) (transcription_data : Option RawPayload)
    (enable_diarization : Bool) : TranscriptionResult :=
  match transcription_data with
  | none => emptyResult
  | some d =>
    if !d.truthy then emptyResult
    else
      match d.results with
      | some rv =>
        if !rv.truthy then emptyResult
        else
          let transcript :=
            match rv.getTranscripts with
            | some (t :: _) => t.transcript.getD ""
            | _ =>
              match rv.getItems with
              | some items => transcriptFromItems items
              | none => ""
          let speakers :=
            if enable_diarization then
              match rv.getSpeakerLabels with
              | some sl => processSpeakers ext_ok sl (rv.getItems.getD [])
              | none => []
            else []
          let dur :=
            match rv.getItems with
            | some items =>
              match items.getLast? with
              | some last => last.end_time.getD 0
              | none => 0
            | none => 0
          { transcript := transcript, speakers := speakers, duration := dur }
      | none =>
        match d.displayText with
        | some t =>
          let dur : ℚ :=
            match d.duration with
            | some ticks => (ticks : ℚ) / 10000000
            | none => 0
          { transcript := t, speakers := [], duration := dur }
        | none => emptyResult

/-- `calculate_cost` from `src/backend/main.py`: per-minute rate table
with default rate 0.02 for unknown providers. -/
def calculate_cost (provider : String) (duration_seconds : ℚ) : ℚ :=
  let duration_minutes := duration_seconds / 60
  let rate : ℚ :=
    if provider = "aws" then 0.024
    else if provider = "azure" then 0.016
    else if provider = "gcp" then 0.018
    else 0.02
  rate * duration_minutes

/-! ## Job store (`src/backend/transcription_jobs.py`) -/

/-- The `JobStatus` enum. -/
inductive JobStatus where
  | created | uploading | queued | processing | downloading | completed | failed
deriving DecidableEq

/-- One job record, as stored in `TranscriptionJobManager.jobs` (the
`job_id` field, equal to the dict key, is kept as the key only). -/
structure Job where
  user_id : String
  filename : String
  provider : String
  status : JobStatus
  progress : ℚ
  current_step : String
  cost_estimate : ℚ
  duration : Option ℚ
  created_at : ℚ
  updated_at : ℚ
deriving DecidableEq

/-- The manager's `jobs` dict, as an association list; the freshest
binding for a key comes first, matching dict-overwrite semantics under
`List.lookup`. -/
abbrev JobTable := List (String × Job)

/-- `create_job`: insert a fresh record with status CREATED, progress 0
and the caller-supplied duration (possibly `None`).  The generated UUID
and wall-clock time are passed in as `job_id` and `now`. -/
def create_job (m : JobTable) (job_id user_id filename provider : String)
    (duration : Option ℚ) (initial_cost_estimate : ℚ) (now : ℚ) : JobTable :=
  (job_id,
    { user_id := user_id, filename := filename, provider := provider,
      status := .created, progress := 0, current_step := "Job created",
      cost_estimate := initial_cost_estimate, duration := duration,
      created_at := now, updated_at := now }) :: m

/-- The `update_data` written by `update_progress` into a record:
progress clamped with `max(0, min(100, progress))`, duration written only
when the caller supplies a non-null value. -/
def applyUpdate (progress : ℚ) (status : JobStatus) (current_step : String)
    (cost_estimate : ℚ) (duration : Option ℚ) (now : ℚ) (j : Job) : Job :=
  { j with
    progress := max 0 (min 100 progress),
    status := status, current_step := current_step,
    cost_estimate := cost_estimate, updated_at := now,
    duration := match duration with
                | some d => some d
                | none => j.duration }

/-- `update_progress`: raises `KeyError` (modelled as `.error`) for an
unknown id; otherwise applies `applyUpdate` to the record under the id. -/
def update_progress (m : JobTable) (job_id : String) (progress : ℚ)
    (status : JobStatus) (current_step : String) (cost_estimate : ℚ)
    (duration : Option ℚ) (now : ℚ) : Except Unit JobTable :=
  if (m.lookup job_id).isSome then
    .ok (m.map fun p =>
      if p.1 = job_id then
        (p.1, applyUpdate progress status current_step cost_estimate duration now p.2)
      else p)
  else .error ()

/-- `delete_job`: idempotent removal. -/
def delete_job (m : JobTable) (job_id : String) : JobTable :=
  m.filter fun p => p.1 ≠ job_id

/-- One call against the job manager, with the non-deterministic inputs
(UUID, wall clock) made explicit. -/
inductive JobOp where
  | create (job_id user_id filename provider : String)
      (duration : Option ℚ) (initial_cost_estimate : ℚ) (now : ℚ)
  | update (job_id : String) (progress : ℚ) (status : JobStatus)
      (current_step : String) (cost_estimate : ℚ) (duration : Option ℚ) (now : ℚ)
  | delete (job_id : String)

/-- Apply one call; a raised `KeyError` leaves the table unchanged. -/
def applyOp (m : JobTable) : JobOp → JobTable
  | .create job_id u f p d c now => create_job m job_id u f p d c now
  | .update job_id pr st step c d now =>
    match update_progress m job_id pr st step c d now with
    | .ok m' => m'
    | .error _ => m
  | .delete job_id => delete_job m job_id

/-- Run a sequence of calls against a table. -/
def runOps (m : JobTable) (ops : List JobOp) : JobTable :=
  ops.foldl applyOp m

/-! ## Per-provider pipeline control flow (`process_aws_transcription`,
`src/backend/main.py`), from the S3 upload call onward.  The remote
calls' outcomes are an oracle (`AwsEnv`); the body has no `try/finally`,
so each raise propagates out of the function directly. -/

/-- Outcome of one remote call: a returned value, or a raised exception. -/
inductive StepOutcome (α : Type) where
  | ok (a : α)
  | exn
deriving DecidableEq

/-- The part of `wait_for_job_completion`'s return value the pipeline
inspects: `none` models a missing "Transcript" key. -/
structure AwsJobInfo where
  transcript_uri : Option String
deriving DecidableEq

/-- `upload_result.startswith("s3://")`, spelled on the character list. -/
def startsWithS3 (s : String) : Bool :=
  s.data.take 5 == "s3://".data

/-- Oracle for one pipeline run: what each remote call does. -/
structure AwsEnv where
  upload : StepOutcome String
  start_truthy : StepOutcome Bool
  wait : StepOutcome (Option AwsJobInfo)
  download : StepOutcome (Option (Option RawPayload))
  cleanup_ok : Bool
  ext_ok : Bool
deriving DecidableEq

/-- Decidable equality of `Except` values, needed for concrete runs. -/
instance {ε α : Type} [DecidableEq ε] [DecidableEq α] : DecidableEq (Except ε α) := fun a b =>
  match a, b with
  | .ok x, .ok y =>
    if h : x = y then .isTrue (by rw [h]) else .isFalse (by intro hc; cases hc; exact h rfl)
  | .error x, .error y =>
    if h : x = y then .isTrue (by rw [h]) else .isFalse (by intro hc; cases hc; exact h rfl)
  | .ok _, .error _ => .isFalse (by intro hc; cases hc)
  | .error _, .ok _ => .isFalse (by intro hc; cases hc)

/-- Observable outcome of one pipeline run: the returned result or the
propagated exception, plus whether `delete_file_from_s3` was invoked. -/
structure AwsRun where
  outcome : Except Unit TranscriptionResult
  cleanup_invoked : Bool
deriving DecidableEq

/-- `process_aws_transcription` from the upload call onward.  Failure of
`wait_for_job_completion` (provider FAILED or timeout) raises; a falsy
return likewise ends in a raise after the status lookup.  The S3 cleanup
call sits on the success path only, wrapped in `try ... except: pass`. -/
def process_aws_transcription (env : AwsEnv) (enable_diarization : Bool) : AwsRun :=
  match env.upload with
  | .exn => { outcome := .error (), cleanup_invoked := false }
  | .ok upload_result =>
    if !startsWithS3 upload_result then
      { outcome := .error (), cleanup_invoked := false }
    else
      match env.start_truthy with
      | .exn => { outcome := .error (), cleanup_invoked := false }
      | .ok t =>
        if !t then { outcome := .error (), cleanup_invoked := false }
        else
          match env.wait with
          | .exn => { outcome := .error (), cleanup_invoked := false }
          | .ok none => { outcome := .error (), cleanup_invoked := false }
          | .ok (some job_info) =>
            match job_info.transcript_uri with
            | none => { outcome := .error (), cleanup_invoked := false }
            | some _ =>
              match env.download with
              | .exn => { outcome := .error (), cleanup_invoked := false }
              | .ok none => { outcome := .error (), cleanup_invoked := false }
              | .ok (some data) =>
                let result := process_transcription_data env.ext_ok data enable_diarization
                let cleanup : Except Unit Unit :=
                  if env.cleanup_ok then .ok () else .error ()
                match cleanup with
                | .ok _ => { outcome := .ok result, cleanup_invoked := true }
                | .error _ => { outcome := .ok result, cleanup_invoked := true }

/-! ## Concrete inputs used by the claims -/

/-- Pronunciation item "hello" over [0.0, 0.5]. -/
def helloItem : Item :=
  { start_time := some 0, end_time := some (mkRat 5 10),
    type := some "pronunciation", alternatives := [{ content := some "hello" }] }

/-- Punctuation item "," carrying timestamps [0.5, 0.5]. -/
def commaTimedItem : Item :=
  { start_time := some (mkRat 5 10), end_time := some (mkRat 5 10),
    type := some "punctuation", alternatives := [{ content := some "," }] }

/-- Punctuation item "," with no timing fields. -/
def commaUntimedItem : Item :=
  { type := some "punctuation", alternatives := [{ content := some "," }] }

/-- Pronunciation item "world" over [0.6, 1.0]. -/
def worldItem : Item :=
  { start_time := some (mkRat 6 10), end_time := some 1,
    type := some "pronunciation", alternatives := [{ content := some "world" }] }

/-- Speaker segment spk_0 over [0.0, 2.0]. -/
def seg02 : Segment :=
  { speaker_label := some "spk_0", start_time := some 0, end_time := some 2 }

/-- Shape A payload with the punctuation item timed at [0.5, 0.5]. -/
def c1PayloadTimed : RawPayload :=
  { results := some (.dict
      { items := some [helloItem, commaTimedItem, worldItem],
        speaker_labels := some { segments := [seg02] } }) }

/-- Shape A payload with the punctuation item untimed. -/
def c1PayloadUntimed : RawPayload :=
  { results := some (.dict
      { items := some [helloItem, commaUntimedItem, worldItem],
        speaker_labels := some { segments := [seg02] } }) }

/-- Shape C payload: `{"results": [{"alternatives": [{"transcript": "foo"}]},
{"alternatives": [{"transcript": "bar"}]}]}`. -/
def c3Payload : RawPayload :=
  { results := some (.glist
      [ { alternatives := [{ transcript := some "foo" }] },
        { alternatives := [{ transcript := some "bar" }] } ]) }

/-- Timed word item ending at 1.0. -/
def c4TimedWord : Item :=
  { start_time := some 0, end_time := some 1,
    type := some "pronunciation", alternatives := [{ content := some "hello" }] }

/-- Trailing punctuation item with no timing fields. -/
def c4TrailingPunct : Item :=
  { type := some "punctuation", alternatives := [{ content := some "." }] }

/-- Shape A payload whose last item is an untimed punctuation item. -/
def c4Payload : RawPayload :=
  { results := some (.dict { items := some [c4TimedWord, c4TrailingPunct] }) }

/-! ## Claim theorems -/

/-- C10: `calculate_cost` equals rate-per-minute times duration in
minutes, with rates 0.024 / 0.016 / 0.018 for aws / azure / gcp and a
default rate 0.02 for every unknown provider; it is a pure total
function, and cost("aws", 300) = 0.12, cost("azure", 300) = 0.08,
cost("gcp", 300) = 0.09, cost("aws", 60) = 0.024. -/
theorem cost_estimator_exact :
    (∀ (provider : String) (duration_seconds : ℚ),
      calculate_cost provider duration_seconds =
        (if provider = "aws" then (0.024 : ℚ)
         else if provider = "azure" then 0.016
         else if provider = "gcp" then 0.018
         else 0.02) * (duration_seconds / 60))
    ∧ calculate_cost "aws" 300 = 0.12
    ∧ calculate_cost "azure" 300 = 0.08
    ∧ calculate_cost "gcp" 300 = 0.09
    ∧ calculate_cost "aws" 60 = 0.024 := by
  refine ⟨fun p d => rfl, ?_, ?_, ?_, ?_⟩ <;>
    simp only [calculate_cost, String.reduceEq, reduceIte] <;> norm_num

/-- C8: a payload without a "results" key but with a "displayText" key
normalizes to that text verbatim with duration = ticks / 10,000,000; in
particular displayText "hi there" with duration 20000000 gives
transcript "hi there" and duration 2.0 s. -/
theorem shape_b_normalization :
    (∀ (t : String) (ticks : ℤ) (ext diar : Bool),
      process_transcription_data ext
          (some { results := none, displayText := some t, duration := some ticks }) diar
        = { transcript := t, speakers := [], duration := (ticks : ℚ) / 10000000 })
    ∧ process_transcription_data true
          (some { results := none, displayText := some "hi there",
                  duration := some 20000000 }) false
        = { transcript := "hi there", speakers := [], duration := 2 } := by
  have hgen : ∀ (t : String) (ticks : ℤ) (ext diar : Bool),
      process_transcription_data ext
          (some { results := none, displayText := some t, duration := some ticks }) diar
        = { transcript := t, speakers := [], duration := (ticks : ℚ) / 10000000 } :=
    fun t ticks ext diar => rfl
  refine ⟨hgen, ?_⟩
  rw [hgen "hi there" 20000000 true false]
  norm_num

/-- C1 counterexample: on the exact item list of the claim — "hello"
[0.0,0.5], punctuation "," [0.5,0.5], "world" [0.6,1.0] in one segment
[0.0,2.0] — the emitted segment text is "hello, , world", not
"hello, world": a punctuation item that itself carries in-segment
timestamps is additionally collected as a standalone word. -/
theorem punctuation_merge_counterexample :
    (process_transcription_data true (some c1PayloadTimed) true).speakers.map SpeakerData.text
      = ["hello, , world"]
    ∧ "hello, , world" ≠ "hello, world" := by decide

/-- C1 amended: with the punctuation item carrying no timing fields (as
punctuation items do in the provider's flat item list), the reconstructed
segment text is exactly "hello, world": the punctuation is appended onto
the preceding collected word with no separating space, collected words
are joined with single spaces, and whitespace runs collapse to one
space. -/
theorem punctuation_merge_amended :
    (process_transcription_data true (some c1PayloadUntimed) true).speakers
      = [{ speaker := "Speaker spk_0", text := "hello, world",
           start_time := 0, end_time := 2 }] := by decide

/-- C3: a raw result whose "results" field is a list of entries with
alternatives ["foo"] and ["bar"] yields transcript "", not "foo bar":
the `"results" in transcription_data` branch also captures list-valued
results, every dict-key membership test inside it fails on a list, and
the list-shaped `elif` branch is unreachable. -/
theorem shape_c_dead_branch :
    (∀ ext diar, process_transcription_data ext (some c3Payload) diar = emptyResult)
    ∧ emptyResult.transcript ≠ "foo bar" := by decide

/-- C4 counterexample: a Shape A payload whose items are a word timed
[0.0,1.0] followed by an untimed punctuation item normalizes to duration
0.0, not to the end_time 1.0 of the last timed item: the code inspects
only the final item of the list. -/
theorem duration_last_item_counterexample :
    (process_transcription_data true (some c4Payload) false).duration = 0
    ∧ (0 : ℚ) ≠ 1
    ∧ c4TimedWord.end_time = some 1
    ∧ c4TrailingPunct.end_time = none
    ∧ (c4Payload.results = some (.dict { items := some [c4TimedWord, c4TrailingPunct] })) := by
  decide

/-- C4 amended: for every Shape A payload, the normalized duration equals
the end_time of the *last item of the list* when that item has one, and
0.0 otherwise — even when earlier items are timed. -/
theorem duration_last_item_amended :
    ∀ (rd : ResultsDict) (items : List Item) (last : Item) (ext diar : Bool),
      rd.items = some items → items.getLast? = some last →
      (process_transcription_data ext
          (some { results := some (.dict rd), displayText := none, duration := none }) diar).duration
        = last.end_time.getD 0 := by
  intro rd items last ext diar hitems hlast
  simp [process_transcription_data, RawPayload.truthy, ResultsVal.truthy,
    ResultsVal.getItems, hitems, hlast]

/-- Pronunciation item straddling the 2.0 boundary: timed [1.9, 2.1]. -/
def straddleItem : Item :=
  { start_time := some (mkRat 19 10), end_time := some (mkRat 21 10),
    type := some "pronunciation", alternatives := [{ content := some "word" }] }

/-- C2: the word-collection step contributes an item to a segment only
when the item's interval is fully contained in the segment's interval;
and for two adjacent segments meeting at 2.0, an item timed [1.9, 2.1] is
contributed to neither side. -/
theorem boundary_straddle_drop :
    (∀ (items : List Item) (segStart segEnd : ℚ) (acc : List String) (item : Item)
        (acc' : List String),
      segmentStep items segStart segEnd acc item = .ok acc' → acc' ≠ acc →
      ∃ ts te, item.start_time = some ts ∧ item.end_time = some te ∧
        segStart ≤ ts ∧ te ≤ segEnd)
    ∧ (∀ (items : List Item) (a b : ℚ) (acc : List String) (item : Item),
        item.start_time = some (mkRat 19 10) → item.end_time = some (mkRat 21 10) →
        segmentStep items a 2 acc item = .ok acc ∧ segmentStep items 2 b acc item = .ok acc) := by
  constructor
  · intro items s e acc item acc' hok hne
    cases hst : item.start_time with
    | none =>
      simp [segmentStep, hst] at hok
      exact absurd hok.symm hne
    | some ts =>
      cases het : item.end_time with
      | none =>
        simp [segmentStep, hst, het] at hok
        exact absurd hok.symm hne
      | some te =>
        by_cases hc : s ≤ ts ∧ te ≤ e
        · exact ⟨ts, te, rfl, rfl, hc.1, hc.2⟩
        · exfalso
          simp [segmentStep, hst, het, hc] at hok
          exact hne hok.symm
  · intro items a b acc item hst het
    constructor
    · have hnc : ¬(a ≤ mkRat 19 10 ∧ mkRat 21 10 ≤ (2 : ℚ)) :=
        fun hc => absurd hc.2 (by decide)
      simp [segmentStep, hst, het, hnc]
    · have hnc : ¬((2 : ℚ) ≤ mkRat 19 10 ∧ mkRat 21 10 ≤ b) :=
        fun hc => absurd hc.1 (by decide)
      simp [segmentStep, hst, het, hnc]

/-- C2 witness: the [1.9, 2.1] item leaves the collected words of both a
[0, 2] and a [2, 4] segment unchanged. -/
theorem boundary_straddle_drop_witness :
    segmentStep [] 0 2 [] straddleItem = .ok []
    ∧ segmentStep [] 2 4 [] straddleItem = .ok [] :=
  boundary_straddle_drop.2 [] 0 4 [] straddleItem rfl rfl

/-- C4 amended, witness: a single timed word item gives duration 1.0. -/
theorem duration_last_item_amended_witness :
    (process_transcription_data true
        (some { results := some (.dict { items := some [c4TimedWord] }),
                displayText := none, duration := none }) false).duration
      = (1 : ℚ) := by
  have h := duration_last_item_amended { items := some [c4TimedWord] }
    [c4TimedWord] c4TimedWord true false rfl rfl
  simpa using h

/-- Lookup after a keyed in-place modification: modifying the record
under `id` and looking `id` up commutes with `Option.map`. -/
theorem lookup_map_modify (m : JobTable) (id : String) (f : Job → Job) :
    (m.map fun p => if p.1 = id then (p.1, f p.2) else p).lookup id
      = (m.lookup id).map f := by
  induction m with
  | nil => rfl
  | cons hd tl ih =>
    obtain ⟨k, j⟩ := hd
    simp only [List.map]
    by_cases h : k = id
    · subst h
      rw [if_pos rfl]
      simp [List.lookup]
    · rw [if_neg h]
      have h' : (id == k) = false := beq_eq_false_iff_ne.mpr fun hh => h hh.symm
      simp [List.lookup, h', ih]

/-- All stored records have progress within [0, 100]. -/
def ProgressInRange (m : JobTable) : Prop :=
  ∀ e ∈ m, 0 ≤ e.2.progress ∧ e.2.progress ≤ 100

/-- The clamp `max(0, min(100, p))` always lands in [0, 100]. -/
theorem clamp_mem_range (p : ℚ) :
    0 ≤ max 0 (min 100 p) ∧ max 0 (min 100 p) ≤ 100 :=
  ⟨le_max_left 0 _, max_le (by norm_num) (min_le_left _ _)⟩

/-- A successful `update_progress` preserves the progress range. -/
theorem update_progress_range (m : JobTable) (job_id : String) (pr : ℚ)
    (st : JobStatus) (step : String) (c : ℚ) (d : Option ℚ) (now : ℚ)
    (m' : JobTable) (h : update_progress m job_id pr st step c d now = .ok m')
    (hm : ProgressInRange m) : ProgressInRange m' := by
  unfold update_progress at h
  by_cases hl : (m.lookup job_id).isSome
  · rw [if_pos hl] at h
    injection h with h
    subst h
    intro e he
    obtain ⟨x, hx, hfx⟩ := List.mem_map.mp he
    by_cases hid : x.1 = job_id
    · rw [if_pos hid] at hfx
      subst hfx
      exact clamp_mem_range pr
    · rw [if_neg hid] at hfx
      subst hfx
      exact hm x hx
  · rw [if_neg hl] at h
    cases h

/-- Every single manager call preserves the progress range. -/
theorem applyOp_range (m : JobTable) (op : JobOp) (hm : ProgressInRange m) :
    ProgressInRange (applyOp m op) := by
  cases op with
  | create job_id u f p d c now =>
    intro e he
    rcases List.mem_cons.mp he with rfl | he
    · exact ⟨le_refl 0, by norm_num⟩
    · exact hm e he
  | update job_id pr st step c d now =>
    simp only [applyOp]
    cases hup : update_progress m job_id pr st step c d now with
    | error e => exact hm
    | ok m' => exact update_progress_range m job_id pr st step c d now m' hup hm
  | delete job_id =>
    intro e he
    exact hm e (List.mem_filter.mp he).1

/-- Any run of manager calls preserves the progress range. -/
theorem runOps_range (ops : List JobOp) :
    ∀ m, ProgressInRange m → ProgressInRange (runOps m ops) := by
  induction ops with
  | nil => exact fun m hm => hm
  | cons op rest ih => exact fun m hm => ih (applyOp m op) (applyOp_range m op hm)

/-- C6: over every sequence of calls against an initially empty store,
every stored record's progress lies in [0, 100]; concretely, an update
with progress 150 stores 100 and an update with progress -10 stores 0. -/
theorem progress_clamped_invariant :
    (∀ (ops : List JobOp) (e : String × Job), e ∈ runOps [] ops →
      0 ≤ e.2.progress ∧ e.2.progress ≤ 100)
    ∧ ((runOps [] [.create "j" "u" "f" "aws" none 0 0,
                   .update "j" 150 .processing "s" 0 none 1]).lookup "j").map Job.progress
        = some 100
    ∧ ((runOps [] [.create "j" "u" "f" "aws" none 0 0,
                   .update "j" (-10) .processing "s" 0 none 1]).lookup "j").map Job.progress
        = some 0 := by
  refine ⟨?_, by decide, by decide⟩
  intro ops e he
  exact runOps_range ops [] (fun x hx => absurd hx (List.not_mem_nil x)) e he

/-- The record created for "j" by `create "j" "u" "f" "aws" d 0 0`. -/
def sampleJob (d : Option ℚ) : Job :=
  { user_id := "u", filename := "f", provider := "aws", status := .created,
    progress := 0, current_step := "Job created", cost_estimate := 0,
    duration := d, created_at := 0, updated_at := 0 }

/-- C6 witness: the invariant applied to a one-element run. -/
theorem progress_clamped_invariant_witness :
    0 ≤ (("j", sampleJob none) : String × Job).2.progress
    ∧ (("j", sampleJob none) : String × Job).2.progress ≤ 100 :=
  progress_clamped_invariant.1 [.create "j" "u" "f" "aws" none 0 0]
    ("j", sampleJob none) (by decide)

/-- C5 counterexample: duration is not monotone — creating a job with
duration 120 and then updating with an explicit duration 50 stores 50,
which is strictly below 120, refuting "once set it never decreases under
any sequence of update calls". -/
theorem duration_monotonic_counterexample :
    ((runOps [] [.create "j" "u" "f" "aws" (some 120) 0 0,
                 .update "j" 50 .processing "s" 0 (some 50) 1]).lookup "j").map Job.duration
      = some (some 50)
    ∧ (50 : ℚ) < 120 := by decide

/-- C5 amended: duration is `None` until set at creation or by an update
supplying a non-null value; an update that omits duration (passes `None`)
preserves the stored value unchanged; an update that supplies a non-null
value overwrites it (and may lower it).  In particular, create with
duration 120 followed by an update without a duration leaves 120. -/
theorem duration_sticky_amended :
    (∀ (m : JobTable) (job_id u f p : String) (d : Option ℚ) (c now : ℚ),
      ((create_job m job_id u f p d c now).lookup job_id).map Job.duration = some d)
    ∧ (∀ (m : JobTable) (job_id : String) (job : Job) (pr : ℚ) (st : JobStatus)
        (step : String) (c now : ℚ),
        m.lookup job_id = some job →
        ∃ m', update_progress m job_id pr st step c none now = .ok m'
          ∧ (m'.lookup job_id).map Job.duration = some job.duration)
    ∧ ((runOps [] [.create "j" "u" "f" "aws" (some 120) 0 0,
                   .update "j" 50 .processing "s" 0 none 1]).lookup "j").map Job.duration
        = some (some 120) := by
  refine ⟨?_, ?_, by decide⟩
  · intro m job_id u f p d c now
    simp [create_job, List.lookup]
  · intro m job_id job pr st step c now hl
    have hsome : (m.lookup job_id).isSome = true := by rw [hl]; rfl
    refine ⟨_, by unfold update_progress; rw [if_pos hsome], ?_⟩
    rw [lookup_map_modify m job_id (applyUpdate pr st step c none now), hl]
    simp [applyUpdate]

/-- C5 amended, witness: creation stores the duration, and an update
omitting the duration preserves it. -/
theorem duration_sticky_amended_witness :
    (((create_job [] "j" "u" "f" "aws" (some 120) 0 0).lookup "j").map Job.duration
      = some (some 120))
    ∧ ∃ m', update_progress [("j", sampleJob (some 120))] "j" 10 .processing "s" 0 none 1
          = .ok m'
        ∧ (m'.lookup "j").map Job.duration = some (sampleJob (some 120)).duration :=
  ⟨duration_sticky_amended.1 [] "j" "u" "f" "aws" (some 120) 0 0,
   duration_sticky_amended.2.1 [("j", sampleJob (some 120))] "j" (sampleJob (some 120))
     10 .processing "s" 0 1 (by decide)⟩

/-- A segment the reconstruction emits carries non-empty text. -/
theorem processSegment_some_text (items : List Item) (seg : Segment) (sd : SpeakerData)
    (h : processSegment items seg = .ok (some sd)) : sd.text ≠ "" := by
  simp only [processSegment] at h
  split at h
  · cases h
  · split at h
    · cases h
    · injection h with h
      injection h with h
      subst h
      assumption

/-- Every speaker entry appended by the segment loop has non-empty text. -/
theorem runSegmentLoop_text (items : List Item) :
    ∀ (segs : List Segment), ∀ sd ∈ (runSegmentLoop items segs).1, sd.text ≠ "" := by
  intro segs
  induction segs with
  | nil => intro sd hsd; cases hsd
  | cons seg rest ih =>
    intro sd hsd
    simp only [runSegmentLoop] at hsd
    split at hsd
    · cases hsd
    · exact ih sd hsd
    · rename_i sd' hps
      rcases List.mem_cons.mp hsd with rfl | hsd
      · exact processSegment_some_text items seg sd hps
      · exact ih sd hsd

/-- A second segment, [3.0, 4.0], containing no items. -/
def farSegment : Segment :=
  { speaker_label := some "spk_1", start_time := some 3, end_time := some 4 }

/-- Speaker labels with one populated and one empty segment. -/
def c7Labels : SpeakerLabels := { segments := [seg02, farSegment] }

/-- Items for the C7 non-raising run. -/
def c7Items : List Item := [helloItem, commaUntimedItem, worldItem]

/-- Pronunciation item "a" timed [0.0, 0.5]. -/
def wordA : Item :=
  { start_time := some 0, end_time := some (mkRat 5 10),
    type := some "pronunciation", alternatives := [{ content := some "a" }] }

/-- Pronunciation item "b" timed [3.0, 3.5]. -/
def wordB : Item :=
  { start_time := some 3, end_time := some (mkRat 35 10),
    type := some "pronunciation", alternatives := [{ content := some "b" }] }

/-- Punctuation item with an empty alternatives list: the lookahead
`next_item["alternatives"][0]` raises on it. -/
def badPunct : Item :=
  { type := some "punctuation", alternatives := [] }

/-- Speaker segment s1 over [0.0, 1.0]. -/
def segS1 : Segment :=
  { speaker_label := some "s1", start_time := some 0, end_time := some 1 }

/-- Speaker segment s2 over [3.0, 4.0]. -/
def segS2 : Segment :=
  { speaker_label := some "s2", start_time := some 3, end_time := some 4 }

/-- Item list that raises while processing s2 (after s1 already emitted). -/
def c7bItems : List Item := [wordA, wordB, badPunct]

/-- Segments for the raising C7 run. -/
def c7bLabels : SpeakerLabels := { segments := [segS1, segS2] }

/-- C7 counterexample: on items "a"[0.0,0.5], "b"[3.0,3.5] and a
punctuation item with no alternatives, against segments s1 = [0,1] and
s2 = [3,4], the lookahead raises while processing s2 *after* s1 already
emitted "a"; the `except` block appends its fallback entries without
clearing the partial output, so the result is the non-empty s1 entry
followed by the two empty fallback entries — not exactly one empty
Speaker Segment per provider segment. -/
theorem diarization_fallback_counterexample :
    (runSegmentLoop c7bItems c7bLabels.segments).2 = true
    ∧ processSpeakers true c7bLabels c7bItems
        = [{ speaker := "Speaker s1", text := "a", start_time := 0, end_time := 1 },
           { speaker := "Speaker s1", text := "", start_time := 0, end_time := 1 },
           { speaker := "Speaker s2", text := "", start_time := 3, end_time := 4 }]
    ∧ processSpeakers true c7bLabels c7bItems
        ≠ [{ speaker := "Speaker s1", text := "", start_time := 0, end_time := 1 },
           { speaker := "Speaker s2", text := "", start_time := 3, end_time := 4 }] := by
  decide

/-- C7 amended: a Speaker Segment is emitted by the loop only when its
reconstructed text is non-empty; a run without an exception outputs
exactly the loop's entries; a run in which an exception is raised
outputs the entries already emitted before the exception *followed by*
one Speaker Segment per provider segment with empty text and the
original timing (appended, not substituted); an exception before the
loop (the external call) yields the fallback entries alone. -/
theorem diarization_partial_fallback_amended :
    ∀ (ext_ok : Bool) (sl : SpeakerLabels) (items : List Item),
      (∀ sd ∈ (runSegmentLoop items sl.segments).1, sd.text ≠ "")
      ∧ (ext_ok = true → (runSegmentLoop items sl.segments).2 = false →
          processSpeakers ext_ok sl items = (runSegmentLoop items sl.segments).1)
      ∧ (ext_ok = true → (runSegmentLoop items sl.segments).2 = true →
          processSpeakers ext_ok sl items
            = (runSegmentLoop items sl.segments).1
              ++ sl.segments.map fun seg =>
                { speaker := "Speaker " ++ seg.speaker_label.getD "Unknown",
                  text := "", start_time := seg.start_time.getD 0,
                  end_time := seg.end_time.getD 0 })
      ∧ (ext_ok = false →
          processSpeakers ext_ok sl items
            = sl.segments.map fun seg =>
                { speaker := "Speaker " ++ seg.speaker_label.getD "Unknown",
                  text := "", start_time := seg.start_time.getD 0,
                  end_time := seg.end_time.getD 0 }) := by
  intro ext_ok sl items
  refine ⟨runSegmentLoop_text items sl.segments, ?_, ?_, ?_⟩
  · intro hext hraise
    subst hext
    simp [processSpeakers, hraise]
  · intro hext hraise
    subst hext
    simp [processSpeakers, hraise, fallbackSpeakers]
  · intro hext
    subst hext
    simp [processSpeakers, fallbackSpeakers]

/-- C7 amended, witness: the non-empty "hello, world" entry from the
non-raising run; that run outputs exactly the loop's entries; and the
raising run appends the fallback entries after the partial output. -/
theorem diarization_partial_fallback_amended_witness :
    (({ speaker := "Speaker spk_0", text := "hello, world",
        start_time := 0, end_time := 2 } : SpeakerData).text ≠ "")
    ∧ processSpeakers true c7Labels c7Items = (runSegmentLoop c7Items c7Labels.segments).1
    ∧ processSpeakers true c7bLabels c7bItems
        = (runSegmentLoop c7bItems c7bLabels.segments).1
          ++ c7bLabels.segments.map fun seg =>
            { speaker := "Speaker " ++ seg.speaker_label.getD "Unknown",
              text := "", start_time := seg.start_time.getD 0,
              end_time := seg.end_time.getD 0 } :=
  ⟨(diarization_partial_fallback_amended true c7Labels c7Items).1
      { speaker := "Speaker spk_0", text := "hello, world", start_time := 0, end_time := 2 }
      (by decide),
   (diarization_partial_fallback_amended true c7Labels c7Items).2.1 rfl (by decide),
   (diarization_partial_fallback_amended true c7bLabels c7bItems).2.2.1 rfl (by decide)⟩

/-- A pipeline run whose upload succeeds and whose job start raises. -/
def c9Env : AwsEnv :=
  { upload := .ok "s3://bucket/audio.wav", start_truthy := .exn,
    wait := .ok none, download := .ok none, cleanup_ok := true, ext_ok := true }

/-- C9 counterexample: after a successful upload, a raising
`start_transcription_job` exits the pipeline without ever invoking the S3
cleanup — cleanup is not invoked on every exit path. -/
theorem cleanup_counterexample :
    c9Env.upload = .ok "s3://bucket/audio.wav"
    ∧ startsWithS3 "s3://bucket/audio.wav" = true
    ∧ (process_aws_transcription c9Env false).outcome = .error ()
    ∧ (process_aws_transcription c9Env false).cleanup_invoked = false := by decide

/-- C9 amended: the S3 cleanup is invoked exactly on the success exit
path (after the result is downloaded and processed); on failure, timeout
or exception paths after the upload it is not invoked; and a failure of
cleanup itself is caught and never influences the outcome. -/
theorem cleanup_on_success_only :
    ∀ (env : AwsEnv) (diar : Bool),
      ((process_aws_transcription env diar).cleanup_invoked
        = match (process_aws_transcription env diar).outcome with
          | .ok _ => true
          | .error _ => false)
      ∧ process_aws_transcription { env with cleanup_ok := true } diar
          = process_aws_transcription { env with cleanup_ok := false } diar := by
  rintro ⟨up, st, w, dl, cl, ext⟩ diar
  refine ⟨?_, ?_⟩ <;>
  · cases up with
    | exn => rfl
    | ok u =>
      cases hsu : startsWithS3 u with
      | false => simp [process_aws_transcription, hsu]
      | true =>
        cases st with
        | exn => simp [process_aws_transcription, hsu]
        | ok t =>
          cases t with
          | false => simp [process_aws_transcription, hsu]
          | true =>
            cases w with
            | exn => simp [process_aws_transcription, hsu]
            | ok wi =>
              cases wi with
              | none => simp [process_aws_transcription, hsu]
              | some ji =>
                cases hji : ji.transcript_uri with
                | none => simp [process_aws_transcription, hsu, hji]
                | some uri =>
                  cases dl with
                  | exn => simp [process_aws_transcription, hsu, hji]
                  | ok dlv =>
                    cases dlv with
                    | none => simp [process_aws_transcription, hsu, hji]
                    | some data =>
                      cases cl <;> simp [process_aws_transcription, hsu, hji]

end Speacher
